import Mathlib

/-!
Verification of the transaction extractor of `bot.py`
(`parse_handwritten_transactions`).

The extractor is shallowly embedded: each regular expression of the source is
implemented as an explicit backtracking matcher over `List Char`, faithful to
Python's leftmost-search, greedy/lazy backtracking semantics for that concrete
pattern.  Decimal numeric tokens (`\d+(?:\.\d+)?`, consumed by `float`) are
modelled as exact rationals.
-/

/-- Python's `\s` class, restricted to the ASCII whitespace characters. -/
def isPySpace (c : Char) : Bool :=
  c = ' ' || c = '\t' || c = '\n' || c = '\r' || c = '\x0b' || c = '\x0c'

/-- Python `str.strip()`: drop whitespace from both ends. -/
def pyStrip (l : List Char) : List Char :=
  ((l.dropWhile isPySpace).reverse.dropWhile isPySpace).reverse

/-- Does `pat` occur at the head of `s`? -/
def leadEq : List Char → List Char → Bool
  | [], _ => true
  | _ :: _, [] => false
  | a :: as, b :: bs => a = b && leadEq as bs

/-- Python's `pat in s` substring test. -/
def hasSeq (pat : List Char) : List Char → Bool
  | [] => leadEq pat []
  | c :: t => leadEq pat (c :: t) || hasSeq pat t

/-- Split a character list at newline characters (Python `str.split('\n')`). -/
def splitNl : List Char → List (List Char)
  | [] => [[]]
  | c :: t =>
    match splitNl t with
    | r :: rs => if c = '\n' then [] :: r :: rs else (c :: r) :: rs
    | [] => [[]]

/-- `ocr_text.replace('\r', '\n').split('\n')`, each line stripped, empty
lines dropped (bot.py lines 158-159). -/
def normLines (text : List Char) : List (List Char) :=
  ((splitNl (text.map fun c => if c = '\r' then '\n' else c)).map pyStrip).filter
    fun l => !l.isEmpty

/-- Value of a decimal digit string. -/
def natOfDigits (l : List Char) : ℕ :=
  l.foldl (fun a c => 10 * a + (c.toNat - 48)) 0

/-- Python `float` on a token of shape `\d+(?:\.\d+)?`, as an exact rational. -/
def decVal (tok : List Char) : ℚ :=
  match tok.dropWhile Char.isDigit with
  | '.' :: f => (natOfDigits (tok.takeWhile Char.isDigit) : ℚ) +
      (natOfDigits f : ℚ) / (10 : ℚ) ^ f.length
  | _ => (natOfDigits (tok.takeWhile Char.isDigit) : ℚ)

/-- Match one token of `\d+(?:\.\d+)?` at the head of the input: the maximal
digit run, extended by a fractional part when a dot followed by at least one
digit is present (both extensions are forced under every continuation of the
source's patterns).  Returns the token and the rest. -/
def numTok (cs : List Char) : Option (List Char × List Char) :=
  match cs with
  | [] => none
  | c :: t =>
    if c.isDigit then
      match t.dropWhile Char.isDigit with
      | '.' :: r2 =>
        if (r2.takeWhile Char.isDigit).isEmpty then
          some (c :: t.takeWhile Char.isDigit, '.' :: r2)
        else
          some (c :: t.takeWhile Char.isDigit ++ '.' :: r2.takeWhile Char.isDigit,
                r2.dropWhile Char.isDigit)
      | r1 => some (c :: t.takeWhile Char.isDigit, r1)
    else none

/-- Fuel-driven scan of `re.findall(r'\d+(?:\.\d+)?', line)`: each step
consumes at least one character, so fuel equal to the input length never
runs out. -/
def numsInF : ℕ → List Char → List (List Char)
  | 0, _ => []
  | _, [] => []
  | fuel + 1, c :: t =>
    if c.isDigit then
      match t.dropWhile Char.isDigit with
      | '.' :: r2 =>
        if (r2.takeWhile Char.isDigit).isEmpty then
          (c :: t.takeWhile Char.isDigit) :: numsInF fuel ('.' :: r2)
        else
          (c :: t.takeWhile Char.isDigit ++ '.' :: r2.takeWhile Char.isDigit) ::
            numsInF fuel (r2.dropWhile Char.isDigit)
      | r1 => (c :: t.takeWhile Char.isDigit) :: numsInF fuel r1
    else numsInF fuel t

/-- `re.findall(r'\d+(?:\.\d+)?', line)` (bot.py line 201): all numeric
tokens of the line, scanned left to right, non-overlapping. -/
def numsIn (l : List Char) : List (List Char) :=
  numsInF l.length l

/-- Fuel-driven scan of `re.sub(r'\d+(?:\.\d+)?', '', s)`; fuel equal to the
input length never runs out. -/
def subNumsF : ℕ → List Char → List Char
  | 0, _ => []
  | _, [] => []
  | fuel + 1, c :: t =>
    if c.isDigit then
      match t.dropWhile Char.isDigit with
      | '.' :: r2 =>
        if (r2.takeWhile Char.isDigit).isEmpty then
          subNumsF fuel ('.' :: r2)
        else
          subNumsF fuel (r2.dropWhile Char.isDigit)
      | r1 => subNumsF fuel r1
    else c :: subNumsF fuel t

/-- `re.sub(r'\d+(?:\.\d+)?', '', s)` (bot.py line 207): delete every numeric
token. -/
def subNums (l : List Char) : List Char :=
  subNumsF l.length l

/-- Python's `value > 0` test on an amount, computed on the numerator
(a rational is positive exactly when its numerator is). -/
def posQ (q : ℚ) : Bool :=
  decide (0 < q.num)

/-- First-some choice on options (Python regex alternative preference). -/
def oor (a b : Option α) : Option α :=
  match a with
  | some x => some x
  | none => b

/-- `[n, n-1, ..., 1]`: candidate lengths of a greedy `\s+`, longest first. -/
def downFrom (n : ℕ) : List ℕ :=
  (List.range n).map fun i => n - i

/-- `[1, ..., n]`: candidate lengths of a lazy repeat, shortest first. -/
def upTo (n : ℕ) : List ℕ :=
  (List.range n).map fun i => i + 1

/-- Exactly `n` leading digits (one backtracking alternative of `\d{a,b}`). -/
def digitsN (n : ℕ) (cs : List Char) : Option (List Char × List Char) :=
  if (cs.take n).length = n ∧ (cs.take n).all Char.isDigit then
    some (cs.take n, cs.drop n)
  else none

/-- A separator character (`-` or `/`) at the head. -/
def sepAt : List Char → Option (Char × List Char)
  | [] => none
  | c :: r => if c = '-' || c = '/' then some (c, r) else none

/-- One backtracking alternative of the date pattern of bot.py line 153
(1-2 digits, a `-` or `/` separator, 1-2 digits, a separator, 2-4 digits),
with fixed digit counts `dn`, `mn`, `yn` for day, month and year. -/
def tryLens (dn mn yn : ℕ) (cs : List Char) : Option (List Char) :=
  (digitsN dn cs).bind fun dr =>
    (sepAt dr.2).bind fun s1r =>
      (digitsN mn s1r.2).bind fun mr =>
        (sepAt mr.2).bind fun s2r =>
          (digitsN yn s2r.2).bind fun _yr =>
            some (dr.1 ++ s1r.1 :: (mr.1 ++ s2r.1 :: _yr.1))

/-- The date pattern matched at one position: all twelve digit-count
alternatives in Python's greedy backtracking order (day 2 then 1, month 2
then 1, year 4 then 3 then 2). -/
def tryDate (cs : List Char) : Option (List Char) :=
  oor (tryLens 2 2 4 cs) (oor (tryLens 2 2 3 cs) (oor (tryLens 2 2 2 cs)
    (oor (tryLens 2 1 4 cs) (oor (tryLens 2 1 3 cs) (oor (tryLens 2 1 2 cs)
    (oor (tryLens 1 2 4 cs) (oor (tryLens 1 2 3 cs) (oor (tryLens 1 2 2 cs)
    (oor (tryLens 1 1 4 cs) (oor (tryLens 1 1 3 cs) (tryLens 1 1 2 cs)))))))))))

/-- `re.search` of the date pattern: try each start position left to right. -/
def dateSearch : List Char → Option (List Char)
  | [] => tryDate []
  | c :: t =>
    match tryDate (c :: t) with
    | some r => some r
    | none => dateSearch t

/-- Pad a decimal rendering of `n` with leading zeros to width `k`. -/
def zpad (k n : ℕ) : List Char :=
  List.replicate (k - (Nat.toDigits 10 n).length) '0' ++ Nat.toDigits 10 n

/-- `datetime.now().strftime("%d-%m-%Y")` for a clock reading day `d`,
month `m`, year `y` (bot.py line 154, fallback branch). -/
def pyToday (d m y : ℕ) : List Char :=
  zpad 2 d ++ '-' :: (zpad 2 m ++ '-' :: zpad 4 y)

/-- The resolved document date (bot.py lines 153-154): the first date-pattern
match of the OCR text, else the formatted current date. -/
def resolveDate (text : List Char) (d m y : ℕ) : List Char :=
  (dateSearch text).getD (pyToday d m y)

/-- The continuation `\s+([^0-9]+?)\s+(\d+(?:\.\d+)?)\s+(\d+(?:\.\d+)?)\s*$`
of the strict pattern (bot.py line 174), after the quantity token `q`,
with Python's backtracking order: greedy whitespace runs longest first, the
lazy description shortest first.  Returns (quantity, description, number,
number) capture groups. -/
def p1Cont (q rest : List Char) :
    Option (List Char × List Char × List Char × List Char) :=
  (downFrom (rest.takeWhile isPySpace).length).findSome? fun k =>
    (upTo ((rest.drop k).takeWhile (fun c => !c.isDigit)).length).findSome? fun l =>
      (downFrom (((rest.drop k).drop l).takeWhile isPySpace).length).findSome? fun k2 =>
        match numTok (((rest.drop k).drop l).drop k2) with
        | none => none
        | some (n3, r8) =>
          (downFrom (r8.takeWhile isPySpace).length).findSome? fun k3 =>
            match numTok (r8.drop k3) with
            | none => none
            | some (n4, r10) =>
              if r10.all isPySpace then
                some (q, (rest.drop k).take l, n3, n4)
              else none

/-- The strict transaction pattern
`(\d+\s*p[cs]?)\s+([^0-9]+?)\s+(\d+(?:\.\d+)?)\s+(\d+(?:\.\d+)?)\s*$`
(bot.py line 174, `re.IGNORECASE`) matched at one fixed position.  The
leading `\d+` and `\s*` runs are maximal (any shorter run is rejected by the
following `p` under every continuation); the optional `[cs]` letter is tried
included first. -/
def p1At (cs : List Char) :
    Option (List Char × List Char × List Char × List Char) :=
  if (cs.takeWhile Char.isDigit).isEmpty then none
  else
    match ((cs.dropWhile Char.isDigit).dropWhile isPySpace) with
    | [] => none
    | c :: r3 =>
      if c.toLower = 'p' then
        oor
          (match r3 with
           | c2 :: r4 =>
             if c2.toLower = 'c' || c2.toLower = 's' then
               p1Cont (cs.takeWhile Char.isDigit ++
                 (cs.dropWhile Char.isDigit).takeWhile isPySpace ++ [c, c2]) r4
             else none
           | [] => none)
          (p1Cont (cs.takeWhile Char.isDigit ++
            (cs.dropWhile Char.isDigit).takeWhile isPySpace ++ [c]) r3)
      else none

/-- `re.search` of the strict pattern: try every start position, leftmost
match wins (the pattern is not anchored at the start of the line). -/
def p1Search : List Char → Option (List Char × List Char × List Char × List Char)
  | [] => p1At []
  | c :: t =>
    match p1At (c :: t) with
    | some r => some r
    | none => p1Search t

/-- The continuation `\s+(.+)` of the salvage prefix pattern (bot.py
line 196) after the quantity token `q`: a greedy whitespace run, then the
greedy `.+` group, which is the maximal run of non-newline characters and
must be non-empty. -/
def p2Cont (q rest : List Char) : Option (List Char × List Char) :=
  (downFrom (rest.takeWhile isPySpace).length).findSome? fun k =>
    if ((rest.drop k).takeWhile (fun c => c != '\n')).isEmpty then none
    else some (q, (rest.drop k).takeWhile (fun c => c != '\n'))

/-- The salvage prefix pattern `^(\d+\s*p[cs]?)\s+(.+)` (bot.py line 196,
`re.IGNORECASE`): anchored at position 0 by `^`. -/
def p2At (cs : List Char) : Option (List Char × List Char) :=
  if (cs.takeWhile Char.isDigit).isEmpty then none
  else
    match ((cs.dropWhile Char.isDigit).dropWhile isPySpace) with
    | [] => none
    | c :: r3 =>
      if c.toLower = 'p' then
        oor
          (match r3 with
           | c2 :: r4 =>
             if c2.toLower = 'c' || c2.toLower = 's' then
               p2Cont (cs.takeWhile Char.isDigit ++
                 (cs.dropWhile Char.isDigit).takeWhile isPySpace ++ [c, c2]) r4
             else none
           | [] => none)
          (p2Cont (cs.takeWhile Char.isDigit ++
            (cs.dropWhile Char.isDigit).takeWhile isPySpace ++ [c]) r3)
      else none

/-- One extracted transaction record (bot.py lines 184-191 / 214-221). -/
structure Transaction where
  date : String
  quantity : String
  description : String
  unit_price : ℚ
  total_amount : ℚ
  currency : String
deriving DecidableEq

/-- The skip test of bot.py line 168:
`not line or 'tanty' in line.lower() or len(line) < 5`. -/
def skipLine (l : List Char) : Bool :=
  l.isEmpty || hasSeq ("tanty".data) (l.map Char.toLower) ||
    decide (l.length < 5)

/-- Pass 1 (bot.py lines 174-193): on a strict-pattern match, build the
record from the stripped capture groups; no positivity check is made. -/
def pass1line (td l : List Char) : Option Transaction :=
  match p1Search l with
  | some r =>
    some ⟨String.mk td, String.mk (pyStrip r.1), String.mk (pyStrip r.2.1),
          decVal r.2.2.1, decVal r.2.2.2, "Rp"⟩
  | none => none

/-- Pass 2 (bot.py lines 196-225): on a prefix match, collect all numeric
tokens of the line; with at least two of them, the unit price is the
second-to-last and the total the last, the description is the prefix-match
remainder with numeric tokens removed and stripped, and the record is kept
only when both amounts are strictly positive. -/
def pass2line (td l : List Char) : Option Transaction :=
  match p2At l with
  | some qg =>
    if 2 ≤ (numsIn l).length then
      if posQ (decVal ((numsIn l).getD ((numsIn l).length - 2) [])) &&
         posQ (decVal ((numsIn l).getD ((numsIn l).length - 1) [])) then
        some ⟨String.mk td, String.mk (pyStrip qg.1),
              String.mk (pyStrip (subNums (pyStrip qg.2))),
              decVal ((numsIn l).getD ((numsIn l).length - 2) []),
              decVal ((numsIn l).getD ((numsIn l).length - 1) []), "Rp"⟩
      else none
    else none
  | none => none

/-- Processing of one line of the loop body (bot.py lines 163-229): strip,
apply the skip test, then Pass 1, then Pass 2. -/
def lineToRecord (td l0 : List Char) : Option Transaction :=
  if skipLine (pyStrip l0) then none
  else oor (pass1line td (pyStrip l0)) (pass2line td (pyStrip l0))

/-- The `for` loop of bot.py lines 163-229, appending each found record to
the accumulator in line order. -/
def runLines (td : List Char) : List Transaction → List (List Char) → List Transaction
  | acc, [] => acc
  | acc, l :: ls =>
    match lineToRecord td l with
    | some t => runLines td (acc ++ [t]) ls
    | none => runLines td acc ls

/-- `parse_handwritten_transactions` (bot.py lines 148-232), with the
current-date clock passed explicitly as day/month/year. -/
def parse (text : List Char) (d m y : ℕ) : List Transaction :=
  runLines (resolveDate text d m y) [] (normLines text)

/-- The spec-side date pattern: a 1-2 digit day, a `-` or `/` separator, a
1-2 digit month, a `-` or `/` separator, and a 2-4 digit year. -/
def datePat (s : List Char) : Prop :=
  ∃ d c1 m c2 y, s = d ++ c1 :: (m ++ c2 :: y) ∧
    1 ≤ d.length ∧ d.length ≤ 2 ∧ d.all Char.isDigit = true ∧
    (c1 = '-' ∨ c1 = '/') ∧
    1 ≤ m.length ∧ m.length ≤ 2 ∧ m.all Char.isDigit = true ∧
    (c2 = '-' ∨ c2 = '/') ∧
    2 ≤ y.length ∧ y.length ≤ 4 ∧ y.all Char.isDigit = true

/-! ## Structural lemmas -/

theorem oor_eq_some {α : Type} {a b : Option α} {x : α} (h : oor a b = some x) :
    a = some x ∨ (a = none ∧ b = some x) := by
  cases a with
  | none => exact Or.inr ⟨rfl, h⟩
  | some v => exact Or.inl h

theorem runLines_filterMap (td : List Char) (acc : List Transaction)
    (ls : List (List Char)) :
    runLines td acc ls = acc ++ ls.filterMap (lineToRecord td) := by
  induction ls generalizing acc with
  | nil => simp [runLines]
  | cons l ls ih =>
    cases h : lineToRecord td l with
    | none => simp [runLines, h, ih]
    | some t => simp [runLines, h, ih]

theorem parse_filterMap (text : List Char) (d m y : ℕ) :
    parse text d m y =
      (normLines text).filterMap (lineToRecord (resolveDate text d m y)) := by
  simp [parse, runLines_filterMap]

theorem mem_parse {text : List Char} {d m y : ℕ} {t : Transaction}
    (h : t ∈ parse text d m y) :
    ∃ l, lineToRecord (resolveDate text d m y) l = some t := by
  rw [parse_filterMap] at h
  obtain ⟨l, _, hl⟩ := List.mem_filterMap.mp h
  exact ⟨l, hl⟩

theorem posQ_iff (q : ℚ) : posQ q = true ↔ 0 < q := by
  simp [posQ, Rat.num_pos]

theorem decVal_nonneg (tok : List Char) : 0 ≤ decVal tok := by
  unfold decVal
  split
  · positivity
  · positivity

theorem pass1line_some {td l : List Char} {t : Transaction}
    (h : pass1line td l = some t) :
    ∃ r, p1Search l = some r ∧
      t = ⟨String.mk td, String.mk (pyStrip r.1), String.mk (pyStrip r.2.1),
           decVal r.2.2.1, decVal r.2.2.2, "Rp"⟩ := by
  unfold pass1line at h
  cases h2 : p1Search l with
  | none => rw [h2] at h; cases h
  | some r => rw [h2] at h; cases h; exact ⟨r, rfl, rfl⟩

theorem pass2line_pos {td l : List Char} {t : Transaction}
    (h : pass2line td l = some t) :
    t.date = String.mk td ∧ 0 < t.unit_price ∧ 0 < t.total_amount := by
  unfold pass2line at h
  split at h
  case h_1 qg heq =>
    split at h
    case isTrue hlen =>
      split at h
      case isTrue hg =>
        cases h
        rw [Bool.and_eq_true] at hg
        exact ⟨rfl, (posQ_iff _).mp hg.1, (posQ_iff _).mp hg.2⟩
      case isFalse hg => cases h
    case isFalse hlen => cases h
  case h_2 heq => cases h

theorem lineToRecord_shape {td l : List Char} {t : Transaction}
    (h : lineToRecord td l = some t) :
    t.date = String.mk td ∧ 0 ≤ t.unit_price ∧ 0 ≤ t.total_amount := by
  unfold lineToRecord at h
  split at h
  · cases h
  · rcases oor_eq_some h with h1 | ⟨_, h2⟩
    · obtain ⟨r, _, rfl⟩ := pass1line_some h1
      exact ⟨rfl, decVal_nonneg _, decVal_nonneg _⟩
    · obtain ⟨hd, hp, ht⟩ := pass2line_pos h2
      exact ⟨hd, le_of_lt hp, le_of_lt ht⟩

theorem lineToRecord_skip {td l : List Char}
    (hs : skipLine (pyStrip l) = true) : lineToRecord td l = none := by
  simp [lineToRecord, hs]

/-! ## Claims -/

/-- Claim C6: every record produced from one OCR text carries the single
resolved document date of that text; no record has a per-line date. -/
theorem record_date_is_document_date (text : List Char) (d m y : ℕ)
    (t : Transaction) (h : t ∈ parse text d m y) :
    t.date = String.mk (resolveDate text d m y) := by
  obtain ⟨l, hl⟩ := mem_parse h
  exact (lineToRecord_shape hl).1

/-- Witness for C6 at a concrete input. -/
theorem record_date_is_document_date_witness :
    (⟨"07-10-2025", "1pc", "Item", 85, 86000, "Rp"⟩ : Transaction).date =
      String.mk (resolveDate ("1pc Item 85 86000".data) 7 10 2025) :=
  record_date_is_document_date _ 7 10 2025 _ (by decide)

/-- Claim C2 (amended): every output record has non-negative amounts, and a
record produced by the salvage pass has strictly positive `unit_price` and
`total_amount`; the strict first pass performs no positivity check. -/
theorem amounts_nonneg_pass2_positive :
    (∀ (text : List Char) (d m y : ℕ) (t : Transaction), t ∈ parse text d m y →
      0 ≤ t.unit_price ∧ 0 ≤ t.total_amount) ∧
    (∀ (td l : List Char) (t : Transaction), pass2line td l = some t →
      0 < t.unit_price ∧ 0 < t.total_amount) := by
  constructor
  · intro text d m y t h
    obtain ⟨l, hl⟩ := mem_parse h
    exact (lineToRecord_shape hl).2
  · intro td l t h
    exact (pass2line_pos h).2

/-- Witness for C2 at concrete inputs. -/
theorem amounts_nonneg_pass2_positive_witness :
    ((0 : ℚ) ≤ (⟨"07-10-2025", "1pc", "Item", 0, 86000, "Rp"⟩ : Transaction).unit_price) ∧
    ((0 : ℚ) < (⟨"07-10-2025", "3pc", "Item", 3, 100, "Rp"⟩ : Transaction).unit_price) :=
  ⟨(amounts_nonneg_pass2_positive.1 ("1pc Item 0 86000".data) 7 10 2025 _ (by decide)).1,
   (amounts_nonneg_pass2_positive.2 ("07-10-2025".data) ("3pc Item 100".data) _ (by decide)).1⟩

/-- Counterexample for C2 as stated: the line `"1pc Item 0 86000"` matches
the strict first pass, which stores the record without any positivity
check, so a record with `unit_price = 0` reaches the output list. -/
theorem pass1_zero_unit_price_record :
    ∃ t, t ∈ parse ("1pc Item 0 86000".data) 7 10 2025 ∧
      ¬ (0 < t.unit_price ∧ 0 < t.total_amount) :=
  ⟨⟨"07-10-2025", "1pc", "Item", 0, 86000, "Rp"⟩, by decide,
   fun hc => absurd hc.1 (lt_irrefl 0)⟩

/-- Claim C7: a line shorter than 5 characters after stripping, or
containing the noise keyword `tanty` case-insensitively, never produces a
record. -/
theorem short_or_noise_line_skipped (td l : List Char)
    (h : (pyStrip l).length < 5 ∨
      hasSeq ("tanty".data) ((pyStrip l).map Char.toLower) = true) :
    lineToRecord td l = none := by
  have hs : skipLine (pyStrip l) = true := by
    unfold skipLine
    rcases h with h | h
    · simp [h]
    · simp [h]
  exact lineToRecord_skip hs

/-- Witness for C7 at the concrete line of spec Scenario 4. -/
theorem short_or_noise_line_skipped_witness :
    ((pyStrip ("TANTY".data)).length < 5 ∨
      hasSeq ("tanty".data) ((pyStrip ("TANTY".data)).map Char.toLower) = true) ∧
    lineToRecord ("x".data) ("TANTY".data) = none :=
  ⟨Or.inr (by decide), short_or_noise_line_skipped _ _ (Or.inr (by decide))⟩

/-- Claim C8: the output is exactly the in-order `filterMap` of the
per-line extractor over the normalized lines: records appear in source-line
order, each line contributes at most one record, and nothing is reordered
or deduplicated. -/
theorem records_in_line_order (text : List Char) (d m y : ℕ) :
    parse text d m y =
      (normLines text).filterMap (lineToRecord (resolveDate text d m y)) :=
  parse_filterMap text d m y

/-- Claim C9: the parser is a total function into record lists; the empty
OCR text yields the empty list, and when every normalized line is rejected
by the skip filter the result is the empty list, not an error. -/
theorem empty_or_filtered_text_gives_empty_list (text : List Char) (d m y : ℕ) :
    parse ([] : List Char) d m y = [] ∧
    ((∀ l ∈ normLines text, skipLine (pyStrip l) = true) →
      parse text d m y = []) := by
  constructor
  · rfl
  · intro h
    rw [parse_filterMap, List.filterMap_eq_nil_iff]
    intro l hl
    exact lineToRecord_skip (h l hl)

/-- Witness for C9 at a concrete fully-filtered input. -/
theorem empty_or_filtered_text_gives_empty_list_witness :
    parse ("TANTY\nab".data) 7 10 2025 = [] :=
  (empty_or_filtered_text_gives_empty_list ("TANTY\nab".data) 7 10 2025).2 (by decide)

/-! ## Date-resolver lemmas -/

theorem digitsN_eq {n : ℕ} {cs d r : List Char} (h : digitsN n cs = some (d, r)) :
    d.length = n ∧ d.all Char.isDigit = true ∧ cs = d ++ r := by
  unfold digitsN at h
  split at h
  case isTrue hc =>
    cases h
    exact ⟨hc.1, hc.2, (List.take_append_drop n cs).symm⟩
  case isFalse => cases h

theorem digitsN_of {n : ℕ} {d : List Char} (r : List Char) (hlen : d.length = n)
    (hdig : d.all Char.isDigit = true) : digitsN n (d ++ r) = some (d, r) := by
  unfold digitsN
  subst hlen
  rw [List.take_left, List.drop_left]
  simp [hdig]

theorem sepAt_eq {cs : List Char} {c : Char} {r : List Char}
    (h : sepAt cs = some (c, r)) : cs = c :: r ∧ (c = '-' ∨ c = '/') := by
  cases cs with
  | nil => cases h
  | cons c0 r0 =>
    simp only [sepAt] at h
    split at h
    case isTrue hc =>
      cases h
      simp only [Bool.or_eq_true, decide_eq_true_eq] at hc
      exact ⟨rfl, hc⟩
    case isFalse => cases h

theorem sepAt_of {c : Char} (r : List Char) (hc : c = '-' ∨ c = '/') :
    sepAt (c :: r) = some (c, r) := by
  unfold sepAt
  rcases hc with h | h <;> simp [h]

theorem tryLens_sound {dn mn yn : ℕ} {cs s : List Char}
    (h : tryLens dn mn yn cs = some s)
    (hd1 : 1 ≤ dn) (hd2 : dn ≤ 2) (hm1 : 1 ≤ mn) (hm2 : mn ≤ 2)
    (hy1 : 2 ≤ yn) (hy2 : yn ≤ 4) :
    datePat s ∧ ∃ r, cs = s ++ r := by
  unfold tryLens at h
  cases h1 : digitsN dn cs with
  | none => rw [h1] at h; cases h
  | some dr =>
    rw [h1, Option.some_bind] at h
    cases h2 : sepAt dr.2 with
    | none => rw [h2] at h; cases h
    | some s1r =>
      rw [h2, Option.some_bind] at h
      cases h3 : digitsN mn s1r.2 with
      | none => rw [h3] at h; cases h
      | some mr =>
        rw [h3, Option.some_bind] at h
        cases h4 : sepAt mr.2 with
        | none => rw [h4] at h; cases h
        | some s2r =>
          rw [h4, Option.some_bind] at h
          cases h5 : digitsN yn s2r.2 with
          | none => rw [h5] at h; cases h
          | some yr =>
            rw [h5, Option.some_bind] at h
            cases h
            obtain ⟨hdl, hdd, hcs⟩ := digitsN_eq (by rw [← h1])
            obtain ⟨hr1, hc1⟩ := sepAt_eq (by rw [← h2])
            obtain ⟨hml, hmd, hr2⟩ := digitsN_eq (by rw [← h3])
            obtain ⟨hr3, hc2⟩ := sepAt_eq (by rw [← h4])
            obtain ⟨hyl, hyd, hr4⟩ := digitsN_eq (by rw [← h5])
            constructor
            · exact ⟨dr.1, s1r.1, mr.1, s2r.1, yr.1, rfl,
                by omega, by omega, hdd, hc1, by omega, by omega, hmd, hc2,
                by omega, by omega, hyd⟩
            · refine ⟨yr.2, ?_⟩
              rw [hcs, hr1, hr2, hr3, hr4]
              simp

theorem tryLens_of {d m2 y2 : List Char} {s1 s2 : Char} (r : List Char)
    (hd : d.all Char.isDigit = true) (hc1 : s1 = '-' ∨ s1 = '/')
    (hm : m2.all Char.isDigit = true) (hc2 : s2 = '-' ∨ s2 = '/')
    (hy : y2.all Char.isDigit = true) :
    tryLens d.length m2.length y2.length (d ++ s1 :: (m2 ++ s2 :: (y2 ++ r))) =
      some (d ++ s1 :: (m2 ++ s2 :: y2)) := by
  unfold tryLens
  rw [digitsN_of (s1 :: (m2 ++ s2 :: (y2 ++ r))) rfl hd, Option.some_bind,
    sepAt_of (m2 ++ s2 :: (y2 ++ r)) hc1, Option.some_bind,
    digitsN_of (s2 :: (y2 ++ r)) rfl hm, Option.some_bind,
    sepAt_of (y2 ++ r) hc2, Option.some_bind,
    digitsN_of r rfl hy, Option.some_bind]

theorem oor_eq_none {α : Type} {a b : Option α} :
    oor a b = none ↔ a = none ∧ b = none := by
  cases a <;> simp [oor]

theorem tryDate_cases {cs s : List Char} (h : tryDate cs = some s) :
    ∃ dn mn yn, (dn = 1 ∨ dn = 2) ∧ (mn = 1 ∨ mn = 2) ∧
      (yn = 2 ∨ yn = 3 ∨ yn = 4) ∧ tryLens dn mn yn cs = some s := by
  unfold tryDate at h
  rcases oor_eq_some h with h | ⟨_, h⟩
  · exact ⟨2, 2, 4, by simp, by simp, by simp, h⟩
  rcases oor_eq_some h with h | ⟨_, h⟩
  · exact ⟨2, 2, 3, by simp, by simp, by simp, h⟩
  rcases oor_eq_some h with h | ⟨_, h⟩
  · exact ⟨2, 2, 2, by simp, by simp, by simp, h⟩
  rcases oor_eq_some h with h | ⟨_, h⟩
  · exact ⟨2, 1, 4, by simp, by simp, by simp, h⟩
  rcases oor_eq_some h with h | ⟨_, h⟩
  · exact ⟨2, 1, 3, by simp, by simp, by simp, h⟩
  rcases oor_eq_some h with h | ⟨_, h⟩
  · exact ⟨2, 1, 2, by simp, by simp, by simp, h⟩
  rcases oor_eq_some h with h | ⟨_, h⟩
  · exact ⟨1, 2, 4, by simp, by simp, by simp, h⟩
  rcases oor_eq_some h with h | ⟨_, h⟩
  · exact ⟨1, 2, 3, by simp, by simp, by simp, h⟩
  rcases oor_eq_some h with h | ⟨_, h⟩
  · exact ⟨1, 2, 2, by simp, by simp, by simp, h⟩
  rcases oor_eq_some h with h | ⟨_, h⟩
  · exact ⟨1, 1, 4, by simp, by simp, by simp, h⟩
  rcases oor_eq_some h with h | ⟨_, h⟩
  · exact ⟨1, 1, 3, by simp, by simp, by simp, h⟩
  exact ⟨1, 1, 2, by simp, by simp, by simp, h⟩

theorem tryDate_sound {cs s : List Char} (h : tryDate cs = some s) :
    datePat s ∧ ∃ r, cs = s ++ r := by
  obtain ⟨dn, mn, yn, hdn, hmn, hyn, htl⟩ := tryDate_cases h
  exact tryLens_sound htl (by omega) (by omega) (by omega) (by omega)
    (by omega) (by omega)

theorem tryDate_complete {cs s r : List Char} (hp : datePat s)
    (hocc : cs = s ++ r) : tryDate cs ≠ none := by
  obtain ⟨d, c1, m2, c2, y2, hs, hd1, hd2, hdd, hc1, hm1, hm2, hmd, hc2,
    hy1, hy2, hyd⟩ := hp
  subst hs
  intro hnone
  unfold tryDate at hnone
  simp only [oor_eq_none] at hnone
  obtain ⟨n224, n223, n222, n214, n213, n212, n124, n123, n122, n114, n113,
    n112⟩ := hnone
  have hocc2 : cs = d ++ c1 :: (m2 ++ c2 :: (y2 ++ r)) := by
    rw [hocc]; simp
  have htl := tryLens_of r hdd hc1 hmd hc2 hyd
  rw [← hocc2] at htl
  have hdl : d.length = 1 ∨ d.length = 2 := by omega
  have hml : m2.length = 1 ∨ m2.length = 2 := by omega
  have hyl : y2.length = 2 ∨ y2.length = 3 ∨ y2.length = 4 := by omega
  rcases hdl with hdl | hdl <;> rcases hml with hml | hml <;>
    rcases hyl with hyl | hyl | hyl <;> rw [hdl, hml, hyl] at htl
  · rw [n112] at htl; cases htl
  · rw [n113] at htl; cases htl
  · rw [n114] at htl; cases htl
  · rw [n122] at htl; cases htl
  · rw [n123] at htl; cases htl
  · rw [n124] at htl; cases htl
  · rw [n212] at htl; cases htl
  · rw [n213] at htl; cases htl
  · rw [n214] at htl; cases htl
  · rw [n222] at htl; cases htl
  · rw [n223] at htl; cases htl
  · rw [n224] at htl; cases htl

theorem dateSearch_none {cs : List Char} (h : dateSearch cs = none) :
    ∀ i, tryDate (cs.drop i) = none := by
  induction cs with
  | nil =>
    intro i
    rw [List.drop_nil]
    exact h
  | cons c t ih =>
    intro i
    unfold dateSearch at h
    cases h0 : tryDate (c :: t) with
    | some r => rw [h0] at h; cases h
    | none =>
      rw [h0] at h
      cases i with
      | zero => exact h0
      | succ j => rw [List.drop_succ_cons]; exact ih h j

theorem dateSearch_sound {cs s : List Char} (h : dateSearch cs = some s) :
    ∃ i, tryDate (cs.drop i) = some s ∧ ∀ j, j < i → tryDate (cs.drop j) = none := by
  induction cs with
  | nil => exact ⟨0, h, fun j hj => absurd hj (Nat.not_lt_zero j)⟩
  | cons c t ih =>
    unfold dateSearch at h
    cases h0 : tryDate (c :: t) with
    | some r =>
      rw [h0] at h
      cases h
      exact ⟨0, h0, fun j hj => absurd hj (Nat.not_lt_zero j)⟩
    | none =>
      rw [h0] at h
      obtain ⟨i, hi, hlt⟩ := ih h
      refine ⟨i + 1, by rw [List.drop_succ_cons]; exact hi, ?_⟩
      intro j hj
      cases j with
      | zero => exact h0
      | succ j2 =>
        rw [List.drop_succ_cons]
        exact hlt j2 (by omega)

/-- Claim C5: the resolved document date is the first (leftmost) substring
of the OCR text matching the day/separator/month/separator/year pattern,
returned verbatim with no reformatting and no calendar validation; when no
such substring exists it is the current date formatted `DD-MM-YYYY`. -/
theorem dateResolver_first_match (text : List Char) (d m y : ℕ) :
    (∀ s, dateSearch text = some s →
      resolveDate text d m y = s ∧ datePat s ∧
      ∃ i, (∃ r, text.drop i = s ++ r) ∧
        ∀ j, j < i → ∀ s2, datePat s2 → ¬ ∃ r2, text.drop j = s2 ++ r2) ∧
    ((∃ i s2 r2, datePat s2 ∧ text.drop i = s2 ++ r2) →
      ∃ s, dateSearch text = some s) ∧
    (dateSearch text = none → resolveDate text d m y = pyToday d m y) := by
  refine ⟨?_, ?_, ?_⟩
  · intro s h
    refine ⟨by simp [resolveDate, h], ?_⟩
    obtain ⟨i, hi, hlt⟩ := dateSearch_sound h
    obtain ⟨hp, r, hr⟩ := tryDate_sound hi
    refine ⟨hp, i, ⟨r, hr⟩, ?_⟩
    intro j hj s2 hp2 hex
    obtain ⟨r2, hr2⟩ := hex
    exact tryDate_complete hp2 hr2 (hlt j hj)
  · intro hex
    obtain ⟨i, s2, r2, hp2, hocc⟩ := hex
    cases hds : dateSearch text with
    | some s => exact ⟨s, rfl⟩
    | none => exact absurd (dateSearch_none hds i) (tryDate_complete hp2 hocc)
  · intro h
    simp [resolveDate, h]

/-- Witness for C5 at the concrete header of spec Scenario 3. -/
theorem dateResolver_first_match_witness :
    resolveDate ("Senin 14-7-2025".data) 2 10 2026 = ("14-7-2025".data) :=
  ((dateResolver_first_match ("Senin 14-7-2025".data) 2 10 2026).1
    ("14-7-2025".data) (by decide)).1

/-! ## Concrete-line evaluation lemmas -/

theorem lineToRecord_eq_none (td l : List Char)
    (h1 : p1Search (pyStrip l) = none) (h2 : p2At (pyStrip l) = none) :
    lineToRecord td l = none := by
  unfold lineToRecord
  split
  · rfl
  · unfold pass1line pass2line
    rw [h1, h2]
    rfl

theorem lineToRecord_eq_pass1 (td l : List Char)
    (r : List Char × List Char × List Char × List Char)
    (qs ds : String) (np nt : ℚ)
    (h0 : skipLine (pyStrip l) = false)
    (h1 : p1Search (pyStrip l) = some r)
    (hq : String.mk (pyStrip r.1) = qs)
    (hd : String.mk (pyStrip r.2.1) = ds)
    (hp : decVal r.2.2.1 = np) (ht : decVal r.2.2.2 = nt) :
    lineToRecord td l = some ⟨String.mk td, qs, ds, np, nt, "Rp"⟩ := by
  simp only [lineToRecord, pass1line, h0, Bool.false_eq_true, if_false, h1,
    oor, hq, hd, hp, ht]

theorem lineToRecord_eq_pass2 (td l : List Char) (qg : List Char × List Char)
    (qs ds : String) (np nt : ℚ)
    (h0 : skipLine (pyStrip l) = false)
    (h1 : p1Search (pyStrip l) = none)
    (h2 : p2At (pyStrip l) = some qg)
    (h3 : 2 ≤ (numsIn (pyStrip l)).length)
    (h4 : decVal ((numsIn (pyStrip l)).getD ((numsIn (pyStrip l)).length - 2) []) = np)
    (h5 : decVal ((numsIn (pyStrip l)).getD ((numsIn (pyStrip l)).length - 1) []) = nt)
    (h6 : posQ np = true) (h7 : posQ nt = true)
    (hq : String.mk (pyStrip qg.1) = qs)
    (hd : String.mk (pyStrip (subNums (pyStrip qg.2))) = ds) :
    lineToRecord td l = some ⟨String.mk td, qs, ds, np, nt, "Rp"⟩ := by
  simp only [lineToRecord, pass1line, pass2line, h0, Bool.false_eq_true,
    if_false, h1, h2, oor, h3, if_true, h4, h5, h6, h7, Bool.and_self, hq, hd]

theorem parse_one_line (text l : List Char) (d m y : ℕ)
    (hn : normLines text = [l]) :
    parse text d m y = (lineToRecord (resolveDate text d m y) l).toList := by
  rw [parse_filterMap, hn]
  cases h : lineToRecord (resolveDate text d m y) l <;>
    simp [List.filterMap_cons, h]

/-- Claim C1 (code bug): the quantity regex `p[cs]?` cannot match the
marker `pcs`, so the line of spec Scenario 2 produces no record in either
pass, although the bot's own /start and /help messages list this exact
format as supported. -/
theorem pcs_line_produces_no_record (d m y : ℕ) :
    parse ("2pcs Std Ayana 85 170000".data) d m y = [] := by
  rw [parse_one_line ("2pcs Std Ayana 85 170000".data)
      ("2pcs Std Ayana 85 170000".data) d m y (by decide),
    lineToRecord_eq_none _ _ (by decide) (by decide)]
  rfl

/-- Counterexample for C3 as stated: on `"1pc Item85 86000 extra"` the
produced record has `unit_price` 85 (the second-to-last numeric token), not
86000. -/
theorem salvage_unit_price_is_85_not_86000 :
    (parse ("1pc Item85 86000 extra".data) 7 10 2025).map
      Transaction.unit_price = [85] ∧ (85 : ℚ) ≠ 86000 :=
  ⟨by decide, by norm_num⟩

/-- Claim C3 (amended): Pass 1 fails on `"1pc Item85 86000 extra"` and
Pass 2 produces one record: description is the remainder after the quantity
prefix with all numeric tokens removed and trimmed, `unit_price` is the
second-to-last numeric token 85, and `total_amount` is the last numeric
token 86000. -/
theorem salvage_price_second_to_last (d m y : ℕ) :
    parse ("1pc Item85 86000 extra".data) d m y =
      [⟨String.mk (pyToday d m y), "1pc", "Item  extra", 85, 86000, "Rp"⟩] := by
  have hres : resolveDate ("1pc Item85 86000 extra".data) d m y = pyToday d m y := by
    unfold resolveDate
    rw [show dateSearch ("1pc Item85 86000 extra".data) = none from by decide]
    rfl
  rw [parse_one_line ("1pc Item85 86000 extra".data)
      ("1pc Item85 86000 extra".data) d m y (by decide), hres,
    lineToRecord_eq_pass2 (pyToday d m y) ("1pc Item85 86000 extra".data)
      ("1pc".data, "Item85 86000 extra".data) "1pc" "Item  extra" 85 86000
      (by decide) (by decide) (by decide) (by decide) (by decide) (by decide)
      (by decide) (by decide) (by decide) (by decide)]
  rfl

/-- Counterexample for C4 as stated: `"abc 1pc Item 85 86000"` has
non-whitespace text before the quantity token yet still produces a record. -/
theorem text_before_quantity_still_parses :
    parse ("abc 1pc Item 85 86000".data) 7 10 2025 ≠ [] := by decide

/-- Claim C4 (amended): Pass 2 does require the line to start with the
quantity token, but Pass 1 is anchored only at the end of the line, so a
line with other text before the quantity token can still produce a record
through Pass 1. -/
theorem pass1_not_start_anchored :
    (∀ (l : List Char) (qg : List Char × List Char), p2At l = some qg →
      ∃ c t, l = c :: t ∧ c.isDigit = true) ∧
    (∀ d m y : ℕ, parse ("abc 1pc Item 85 86000".data) d m y =
      [⟨String.mk (pyToday d m y), "1pc", "Item", 85, 86000, "Rp"⟩]) := by
  constructor
  · intro l qg h
    unfold p2At at h
    by_cases he : (l.takeWhile Char.isDigit).isEmpty
    · rw [if_pos he] at h
      cases h
    · cases l with
      | nil => simp [List.takeWhile] at he
      | cons c t =>
        refine ⟨c, t, rfl, ?_⟩
        by_cases hc : c.isDigit
        · exact hc
        · exfalso
          apply he
          simp [List.takeWhile_cons, hc]
  · intro d m y
    have hres : resolveDate ("abc 1pc Item 85 86000".data) d m y = pyToday d m y := by
      unfold resolveDate
      rw [show dateSearch ("abc 1pc Item 85 86000".data) = none from by decide]
      rfl
    rw [parse_one_line ("abc 1pc Item 85 86000".data)
        ("abc 1pc Item 85 86000".data) d m y (by decide), hres,
      lineToRecord_eq_pass1 (pyToday d m y) ("abc 1pc Item 85 86000".data)
        ("1pc".data, "Item".data, "85".data, "86000".data) "1pc" "Item" 85 86000
        (by decide) (by decide) (by decide) (by decide) (by decide) (by decide)]
    rfl

/-- Witness for C4's Pass 2 start-anchor property at a concrete input. -/
theorem pass1_not_start_anchored_witness :
    ∃ c t, ("3pc Item 100".data) = c :: t ∧ c.isDigit = true :=
  pass1_not_start_anchored.1 ("3pc Item 100".data)
    ("3pc".data, "Item 100".data) (by decide)

/-- Claim C10: in Pass 2 the digits of the quantity token are counted among
the numeric tokens of the line, so `"3pc Item 100"` has two numeric tokens
and yields a record with `unit_price` 3 (the quantity count) and
`total_amount` 100. -/
theorem quantity_digits_counted (d m y : ℕ) :
    parse ("3pc Item 100".data) d m y =
      [⟨String.mk (pyToday d m y), "3pc", "Item", 3, 100, "Rp"⟩] := by
  have hres : resolveDate ("3pc Item 100".data) d m y = pyToday d m y := by
    unfold resolveDate
    rw [show dateSearch ("3pc Item 100".data) = none from by decide]
    rfl
  rw [parse_one_line ("3pc Item 100".data) ("3pc Item 100".data) d m y
      (by decide), hres,
    lineToRecord_eq_pass2 (pyToday d m y) ("3pc Item 100".data)
      ("3pc".data, "Item 100".data) "3pc" "Item" 3 100
      (by decide) (by decide) (by decide) (by decide) (by decide) (by decide)
      (by decide) (by decide) (by decide) (by decide)]
  rfl
